import Mathlib

/-!
Shallow embedding of the kmath 3D projective-geometric-algebra library
(src/kmath), with floating-point scalars modelled as real numbers:
`float`/`double` become `ℝ`, `std::sqrt` becomes `Real.sqrt`, `std::cos`
becomes `Real.cos`, and so on.  Every definition mirrors the corresponding
C++ function of the repository; the source file and function are named in
each doc comment.  Theorems about the specification's claims follow the
definitions.
-/

open scoped Classical

noncomputable section

namespace kmath

/-- `KMATH_EPSILON` from src/kmath/kmath.hpp line 31: the linear epsilon
0.00001 used by `is_approx_zero`. -/
def KMATH_EPSILON : ℝ := 1 / 100000

/-- `KMATH_EPSILON2` from src/kmath/kmath.hpp line 34:
`KMATH_EPSILON * KMATH_EPSILON`. -/
def KMATH_EPSILON2 : ℝ := KMATH_EPSILON * KMATH_EPSILON

/-- `is_approx_zero<float/double>` from src/kmath/utils.hpp lines 40-49:
`std::abs(a) < KMATH_EPSILON`. -/
def is_approx_zero (a : ℝ) : Prop := |a| < KMATH_EPSILON

/-- `is_square_approx_zero` from src/kmath/utils.hpp lines 64-68:
`std::abs(a) < KMATH_EPSILON2`. -/
def is_square_approx_zero (a : ℝ) : Prop := |a| < KMATH_EPSILON2

/-- `_Vec3<T>` from src/kmath/vector.hpp. -/
@[ext] structure Vec3 where
  x : ℝ
  y : ℝ
  z : ℝ

namespace Vec3

/-- `_Vec3<T>::ZERO` from src/kmath/vector.hpp line 341. -/
def ZERO : Vec3 := ⟨0, 0, 0⟩

/-- `_Vec3<T>::INF` from src/kmath/vector.hpp line 345 is built from
`std::numeric_limits<T>::infinity()`.  IEEE infinity has no counterpart in
`ℝ`; it is modelled by an unspecified sentinel value.  No claim proved in
this file ever reads this sentinel: it only appears as the moment returned
by `to_screw_coordinates` in its pure-translation branch, which
`from_screw_coordinates` ignores. -/
def INF : Vec3 := ⟨0, 0, 0⟩

/-- `length_squared(_Vec3)` from src/kmath/vector.hpp line 360. -/
def length_squared (v : Vec3) : ℝ := v.x * v.x + v.y * v.y + v.z * v.z

/-- `length(_Vec3)` from src/kmath/vector.hpp line 366. -/
def length (v : Vec3) : ℝ := Real.sqrt (length_squared v)

/-- scalar multiplication `operator*(T, _Vec3)` from src/kmath/vector.hpp. -/
def smul (a : ℝ) (v : Vec3) : Vec3 := ⟨a * v.x, a * v.y, a * v.z⟩

/-- componentwise `operator+` on `_Vec3` from src/kmath/vector.hpp. -/
def add (a b : Vec3) : Vec3 := ⟨a.x + b.x, a.y + b.y, a.z + b.z⟩

/-- `operator/(_Vec3, T)` from src/kmath/vector.hpp. -/
def divScalar (v : Vec3) (b : ℝ) : Vec3 := ⟨v.x / b, v.y / b, v.z / b⟩

end Vec3

/-- `lerp` from src/kmath/utils.hpp lines 95-98:
`(1.0 - t) * a + t * b`. -/
def lerp (a b : Vec3) (t : ℝ) : Vec3 :=
  Vec3.add (Vec3.smul (1 - t) a) (Vec3.smul t b)

/-- `_Rotor3<T>` from src/kmath/rotor_3d.hpp lines 36-56. -/
@[ext] structure Rotor3 where
  s : ℝ
  e23 : ℝ
  e31 : ℝ
  e12 : ℝ

namespace Rotor3

/-- `_Rotor3<T>::ZERO` from src/kmath/rotor_3d.hpp line 60. -/
def ZERO : Rotor3 := ⟨0, 0, 0, 0⟩

/-- `_Rotor3<T>::IDENTITY` from src/kmath/rotor_3d.hpp line 62. -/
def IDENTITY : Rotor3 := ⟨1, 0, 0, 0⟩

/-- the `_Rotor3(T s, const _Vec3 &v)` constructor from
src/kmath/rotor_3d.hpp line 43. -/
def ofSV (s : ℝ) (v : Vec3) : Rotor3 := ⟨s, v.x, v.y, v.z⟩

/-- `reverse(_Rotor3)` from src/kmath/rotor_3d.hpp lines 70-75. -/
def reverse (r : Rotor3) : Rotor3 := ⟨r.s, -r.e23, -r.e31, -r.e12⟩

/-- `length_squared(_Rotor3)` from src/kmath/rotor_3d.hpp lines 78-81. -/
def length_squared (r : Rotor3) : ℝ :=
  r.s * r.s + r.e23 * r.e23 + r.e31 * r.e31 + r.e12 * r.e12

/-- `length(_Rotor3)` from src/kmath/rotor_3d.hpp lines 84-87. -/
def length (r : Rotor3) : ℝ := Real.sqrt (length_squared r)

/-- `get_direction(_Rotor3)` from src/kmath/rotor_3d.hpp lines 102-105. -/
def get_direction (r : Rotor3) : Vec3 := ⟨r.e23, r.e31, r.e12⟩

/-- scalar multiplication `operator*(T, _Rotor3)` from
src/kmath/rotor_3d.hpp lines 195-216. -/
def smul (a : ℝ) (r : Rotor3) : Rotor3 :=
  ⟨a * r.s, a * r.e23, a * r.e31, a * r.e12⟩

/-- rotor product `operator*(_Rotor3, _Rotor3)` from
src/kmath/rotor_3d.hpp lines 237-245, coefficient for coefficient. -/
def mul (a b : Rotor3) : Rotor3 :=
  ⟨-a.e23 * b.e23 - a.e31 * b.e31 - a.e12 * b.e12 + a.s * b.s,
   a.s * b.e23 + a.e23 * b.s + a.e31 * b.e12 - a.e12 * b.e31,
   a.s * b.e31 + a.e31 * b.s + a.e12 * b.e23 - a.e23 * b.e12,
   a.s * b.e12 + a.e12 * b.s + a.e23 * b.e31 - a.e31 * b.e23⟩

/-- `exp(_Rotor3)` from src/kmath/rotor_3d.hpp lines 108-119. -/
def exp (r : Rotor3) : Rotor3 :=
  let len_v := Vec3.length (get_direction r)
  let exp_w := Real.exp r.s
  if is_approx_zero len_v then ofSV exp_w (Vec3.smul exp_w (get_direction r))
  else
    ofSV (exp_w * Real.cos len_v)
      (Vec3.smul (exp_w * Real.sin len_v / len_v) (get_direction r))

/-- `ln(_Rotor3)` from src/kmath/rotor_3d.hpp lines 122-133. -/
def ln (r : Rotor3) : Rotor3 :=
  let len := length r
  let len_v := Vec3.length ⟨r.e23, r.e31, r.e12⟩
  if is_approx_zero len_v then ofSV (Real.log len) Vec3.ZERO
  else
    ofSV (Real.log len)
      (Vec3.smul (Real.arccos (r.s / len) / len_v) (get_direction r))

/-- `pow(_Rotor3, T)` from src/kmath/rotor_3d.hpp lines 136-139:
`exp(power * ln(r))`. -/
def pow (r : Rotor3) (power : ℝ) : Rotor3 := exp (smul power (ln r))

/-- `slerp(_Rotor3, _Rotor3, T)` from src/kmath/rotor_3d.hpp lines 147-150:
`a * pow(reverse(a) * b, t)`. -/
def slerp (a b : Rotor3) (t : ℝ) : Rotor3 :=
  mul a (pow (mul (reverse a) b) t)

end Rotor3

/-- `transform(_Vec3, _Rotor3)` from src/kmath/rotor_3d.hpp lines 317-324,
term for term. -/
def transformVec (a : Vec3) (r : Rotor3) : Vec3 :=
  ⟨- a.x * r.e23 * r.e23 + a.x * r.e31 * r.e31 + a.x * r.e12 * r.e12
     - a.x * r.s * r.s - 2 * a.y * r.s * r.e12 - 2 * a.y * r.e31 * r.e23
     - 2 * a.z * r.e12 * r.e23 + 2 * a.z * r.s * r.e31,
   a.y * r.e23 * r.e23 - a.y * r.e31 * r.e31 + a.y * r.e12 * r.e12
     - a.y * r.s * r.s - 2 * a.z * r.s * r.e23 - 2 * a.z * r.e31 * r.e12
     - 2 * a.x * r.e31 * r.e23 + 2 * a.x * r.s * r.e12,
   a.z * r.e23 * r.e23 + a.z * r.e31 * r.e31 - a.z * r.e12 * r.e12
     - a.z * r.s * r.s - 2 * a.x * r.e12 * r.e23 - 2 * a.x * r.s * r.e31
     + 2 * a.y * r.s * r.e23 - 2 * a.y * r.e31 * r.e12⟩

/-- `_Plane3<T>` from src/kmath/euclidian_flat_3d.hpp lines 38-67. -/
@[ext] structure Plane3 where
  e1 : ℝ
  e2 : ℝ
  e3 : ℝ
  e0 : ℝ

namespace Plane3

/-- `_Plane3<T>::plane(normal, distance)` from
src/kmath/euclidian_flat_3d.hpp lines 52-54: stores `-distance` in e0. -/
def plane (normal : Vec3) (distance : ℝ) : Plane3 :=
  ⟨normal.x, normal.y, normal.z, -distance⟩

/-- `magnitude_squared(_Plane3)` from src/kmath/euclidian_flat_3d.hpp
lines 222-225. -/
def magnitude_squared (a : Plane3) : ℝ :=
  a.e1 * a.e1 + a.e2 * a.e2 + a.e3 * a.e3

/-- `magnitude(_Plane3)` from src/kmath/euclidian_flat_3d.hpp
lines 234-237. -/
def magnitude (a : Plane3) : ℝ := Real.sqrt (magnitude_squared a)

/-- `is_vanishing(_Plane3)` from src/kmath/euclidian_flat_3d.hpp
lines 216-219: `is_square_approx_zero(magnitude_squared(a))`. -/
def is_vanishing (a : Plane3) : Prop :=
  is_square_approx_zero (magnitude_squared a)

/-- `operator/(_Plane3, T)` from src/kmath/euclidian_flat_3d.hpp
lines 382-397. -/
def divScalar (a : Plane3) (b : ℝ) : Plane3 :=
  ⟨a.e1 / b, a.e2 / b, a.e3 / b, a.e0 / b⟩

/-- `normalized(_Plane3)` from src/kmath/euclidian_flat_3d.hpp
lines 246-255: divide by the magnitude when the plane is not vanishing,
otherwise return the constant plane (0, 0, 0, -1). -/
def normalized (a : Plane3) : Plane3 :=
  if ¬is_vanishing a then divScalar a (magnitude a) else ⟨0, 0, 0, -1⟩

end Plane3

/-- `_Line3<T>` from src/kmath/euclidian_flat_3d.hpp lines 76-139. -/
@[ext] structure Line3 where
  e23 : ℝ
  e31 : ℝ
  e12 : ℝ
  e01 : ℝ
  e02 : ℝ
  e03 : ℝ

namespace Line3

/-- `_Line3<T>::vanishing_line(dx, dy, dz)` from
src/kmath/euclidian_flat_3d.hpp lines 117-122. -/
def vanishing_line (dx dy dz : ℝ) : Line3 := ⟨0, 0, 0, dx, dy, dz⟩

/-- `magnitude_squared(_Line3)` from src/kmath/euclidian_flat_3d.hpp
lines 411-414. -/
def magnitude_squared (a : Line3) : ℝ :=
  a.e23 * a.e23 + a.e31 * a.e31 + a.e12 * a.e12

/-- `is_vanishing(_Line3)` from src/kmath/euclidian_flat_3d.hpp
lines 405-408. -/
def is_vanishing (a : Line3) : Prop :=
  is_square_approx_zero (magnitude_squared a)

/-- scalar multiplication `operator*(T, _Line3)` from
src/kmath/euclidian_flat_3d.hpp lines 525-535. -/
def smul (a : ℝ) (b : Line3) : Line3 :=
  ⟨a * b.e23, a * b.e31, a * b.e12, a * b.e01, a * b.e02, a * b.e03⟩

end Line3

/-- `_Point3<T>` from src/kmath/euclidian_flat_3d.hpp lines 142-180. -/
@[ext] structure Point3 where
  e032 : ℝ
  e013 : ℝ
  e021 : ℝ
  e123 : ℝ

namespace Point3

/-- `magnitude_squared(_Point3)` from src/kmath/euclidian_flat_3d.hpp
lines 601-604. -/
def magnitude_squared (a : Point3) : ℝ := a.e123 * a.e123

/-- `is_vanishing(_Point3)` from src/kmath/euclidian_flat_3d.hpp
lines 625-628: `is_approx_zero(a.e123)` - the linear test on the
homogeneous weight, not the squared test used by planes and lines. -/
def is_vanishing (a : Point3) : Prop := is_approx_zero a.e123

end Point3

/-- `meet(_Plane3, _Plane3)` from src/kmath/euclidian_flat_3d.hpp
lines 258-268, coefficient for coefficient. -/
def meetPP (a b : Plane3) : Line3 :=
  ⟨a.e2 * b.e3 - a.e3 * b.e2,
   a.e3 * b.e1 - a.e1 * b.e3,
   a.e1 * b.e2 - a.e2 * b.e1,
   a.e0 * b.e1 - a.e1 * b.e0,
   a.e0 * b.e2 - a.e2 * b.e0,
   a.e0 * b.e3 - a.e3 * b.e0⟩

/-- `std::atan2(y, x)`, modelled branch by branch on the C standard:
`arctan(y/x)` for `x > 0`, shifted by pi for `x < 0`, and the axis values
otherwise. -/
def atan2 (y x : ℝ) : ℝ :=
  if 0 < x then Real.arctan (y / x)
  else if x < 0 ∧ 0 ≤ y then Real.arctan (y / x) + Real.pi
  else if x < 0 ∧ y < 0 then Real.arctan (y / x) - Real.pi
  else if x = 0 ∧ 0 < y then Real.pi / 2
  else if x = 0 ∧ y < 0 then -(Real.pi / 2)
  else 0

/-- `_Motor3<T>` from src/kmath/motor_3d.hpp lines 37-103:
coefficients (s, e23, e31, e12 | e0123, e01, e02, e03). -/
@[ext] structure Motor3 where
  s : ℝ
  e23 : ℝ
  e31 : ℝ
  e12 : ℝ
  e0123 : ℝ
  e01 : ℝ
  e02 : ℝ
  e03 : ℝ

namespace Motor3

/-- the `_Motor3(real, dual)` constructor from src/kmath/motor_3d.hpp
line 44: real part (s, e23, e31, e12), dual part (e0123, e01, e02, e03). -/
def ofRotors (real dual : Rotor3) : Motor3 :=
  ⟨real.s, real.e23, real.e31, real.e12, dual.s, dual.e23, dual.e31, dual.e12⟩

/-- `_Motor3<T>::IDENTITY` from src/kmath/motor_3d.hpp line 109. -/
def IDENTITY : Motor3 := ofRotors Rotor3.IDENTITY Rotor3.ZERO

/-- `_Motor3<T>::from_translation` from src/kmath/motor_3d.hpp
lines 55-60. -/
def from_translation (translation : Vec3) : Motor3 :=
  ofRotors Rotor3.IDENTITY (Rotor3.ofSV 0 (Vec3.smul (-(1/2 : ℝ)) translation))

/-- `_Motor3<T>::from_rotor_translation` from src/kmath/motor_3d.hpp
lines 68-77: the dual part is `reverse(trans * rotation)` with
`trans = (0, 0.5 * translation)`. -/
def from_rotor_translation (rotation : Rotor3) (translation : Vec3) : Motor3 :=
  let trans := Rotor3.ofSV 0 (Vec3.smul (1/2 : ℝ) translation)
  ofRotors rotation (Rotor3.reverse (Rotor3.mul trans rotation))

/-- `_Motor3<T>::from_screw_coordinates` from src/kmath/motor_3d.hpp
lines 87-98. -/
def from_screw_coordinates (direction moment : Vec3) (angle translation : ℝ) :
    Motor3 :=
  if ¬is_approx_zero angle then
    let cos_a := Real.cos (angle / 2)
    let sin_a := Real.sin (angle / 2)
    ofRotors (Rotor3.ofSV cos_a (Vec3.smul sin_a direction))
      (Rotor3.ofSV (-(1/2 : ℝ) * translation * sin_a)
        (Vec3.add (Vec3.smul sin_a moment)
          (Vec3.smul ((1/2 : ℝ) * translation * cos_a) direction)))
  else
    from_translation (Vec3.smul translation direction)

/-- `get_real_part(_Motor3)` from src/kmath/motor_3d.hpp lines 117-120
(a `reinterpret_cast` of the first four fields, modelled as field
extraction). -/
def get_real_part (m : Motor3) : Rotor3 := ⟨m.s, m.e23, m.e31, m.e12⟩

/-- `get_dual_part(_Motor3)` from src/kmath/motor_3d.hpp lines 123-126
(a `reinterpret_cast` of the last four fields, modelled as field
extraction). -/
def get_dual_part (m : Motor3) : Rotor3 := ⟨m.e0123, m.e01, m.e02, m.e03⟩

/-- `get_rotor(_Motor3)` from src/kmath/motor_3d.hpp lines 129-132. -/
def get_rotor (m : Motor3) : Rotor3 := get_real_part m

/-- `get_translation(_Motor3)` from src/kmath/motor_3d.hpp lines 135-142:
`2.0 * reverse(dual) * reverse(real)`, keeping the (e23, e31, e12)
coefficients. -/
def get_translation (m : Motor3) : Vec3 :=
  let translation :=
    Rotor3.smul 2 (Rotor3.mul (Rotor3.reverse (get_dual_part m))
      (Rotor3.reverse (get_real_part m)))
  ⟨translation.e23, translation.e31, translation.e12⟩

/-- `reverse(_Motor3)` from src/kmath/motor_3d.hpp lines 235-241. -/
def reverse (m : Motor3) : Motor3 :=
  ⟨m.s, -m.e23, -m.e31, -m.e12, m.e0123, -m.e01, -m.e02, -m.e03⟩

/-- `magnitude_squared(_Motor3)` from src/kmath/motor_3d.hpp
lines 244-247. -/
def magnitude_squared (m : Motor3) : ℝ :=
  m.s * m.s + m.e23 * m.e23 + m.e31 * m.e31 + m.e12 * m.e12

/-- `operator/(_Motor3, T)` from src/kmath/motor_3d.hpp lines 534-553. -/
def divScalar (m : Motor3) (b : ℝ) : Motor3 :=
  ⟨m.s / b, m.e23 / b, m.e31 / b, m.e12 / b,
   m.e0123 / b, m.e01 / b, m.e02 / b, m.e03 / b⟩

/-- unary `operator-(_Motor3)` from src/kmath/motor_3d.hpp
lines 498-503. -/
def neg (m : Motor3) : Motor3 :=
  ⟨-m.s, -m.e23, -m.e31, -m.e12, -m.e0123, -m.e01, -m.e02, -m.e03⟩

/-- motor product `operator*(_Motor3, _Motor3)` from
src/kmath/motor_3d.hpp lines 556-569, term for term. -/
def mul (a b : Motor3) : Motor3 :=
  ⟨b.s * a.s - b.e23 * a.e23 - a.e31 * b.e31 - b.e12 * a.e12,
   a.s * b.e23 + b.s * a.e23 - a.e31 * b.e12 + b.e31 * a.e12,
   a.s * b.e31 + b.s * a.e31 + a.e23 * b.e12 - b.e23 * a.e12,
   a.s * b.e12 + b.s * a.e12 - a.e23 * b.e31 + b.e23 * a.e31,
   a.e01 * b.e23 + a.e02 * b.e31 + a.e03 * b.e12 + b.e01 * a.e23
     + b.e02 * a.e31 + b.e03 * a.e12 + a.s * b.e0123 + b.s * a.e0123,
   a.s * b.e01 + b.s * a.e01 + a.e03 * b.e31 - a.e02 * b.e12 + b.e02 * a.e12
     - b.e03 * a.e31 - a.e23 * b.e0123 - b.e23 * a.e0123,
   a.s * b.e02 + b.s * a.e02 + a.e01 * b.e12 - a.e03 * b.e23 - b.e01 * a.e12
     + b.e03 * a.e23 - a.e31 * b.e0123 - b.e31 * a.e0123,
   a.s * b.e03 + b.s * a.e03 - a.e01 * b.e31 + a.e02 * b.e23 + b.e01 * a.e31
     - b.e02 * a.e23 - a.e12 * b.e0123 - b.e12 * a.e0123⟩

/-- `sqrt(_Motor3)` from src/kmath/motor_3d.hpp lines 170-199, both
branches verbatim. -/
def sqrt (m : Motor3) : Motor3 :=
  if 0 ≤ m.s then
    let num := 2 * (1 + m.s)
    let g4 := m.e0123 / num
    divScalar
      ⟨1 + m.s, m.e23, m.e31, m.e12,
       m.e0123 - m.s * g4, m.e01 + m.e23 * g4,
       m.e02 + m.e31 * g4, m.e03 + m.e12 * g4⟩
      (Real.sqrt num)
  else
    let num := 2 * (1 - m.s)
    let g4 := m.e0123 / num
    divScalar
      ⟨-1 + m.s, m.e23, m.e31, m.e12,
       m.e0123 - m.s * g4, m.e01 + m.e23 * g4,
       m.e02 + m.e31 * g4, m.e03 + m.e12 * g4⟩
      (Real.sqrt num)

/-- `exp(_Line3)` from src/kmath/motor_3d.hpp lines 281-353, including the
ideal-bivector branch and the sturdy-number normalization. -/
def exp (b : Line3) : Motor3 :=
  let r := Line3.magnitude_squared b
  if is_square_approx_zero r then
    ofRotors Rotor3.IDENTITY ⟨0, b.e01, b.e02, b.e03⟩
  else
    let ps := -b.e23 * b.e01 - b.e31 * b.e02 - b.e12 * b.e03
    let u := Real.sqrt r
    let v := ps / u
    let inv_u := 1 / u
    let inv_v := -v / r
    let l : Line3 :=
      ⟨inv_u * b.e23, inv_u * b.e31, inv_u * b.e12,
       inv_u * b.e01 - inv_v * b.e23,
       inv_u * b.e02 - inv_v * b.e31,
       inv_u * b.e03 - inv_v * b.e12⟩
    let cosu := Real.cos u
    let sinu := Real.sin u
    let vcosu := v * cosu
    ⟨cosu, sinu * l.e23, sinu * l.e31, sinu * l.e12,
     -v * sinu,
     sinu * l.e01 - vcosu * l.e23,
     sinu * l.e02 - vcosu * l.e31,
     sinu * l.e03 - vcosu * l.e12⟩

/-- `log(_Motor3)` from src/kmath/motor_3d.hpp lines 358-432.  Note the
source sets `r` to `length(...)` of the bivector part (not the squared
length used by `exp`). -/
def log (m : Motor3) : Line3 :=
  let r := Vec3.length ⟨m.e23, m.e31, m.e12⟩
  if is_approx_zero r then
    ⟨0, 0, 0, m.e01, m.e02, m.e03⟩
  else
    let ps := -m.e23 * m.e01 - m.e31 * m.e02 - m.e12 * m.e03
    let u := Real.sqrt r
    let v := ps / u
    let inv_u := 1 / u
    let inv_v := -v / r
    let l : Line3 :=
      ⟨inv_u * m.e23, inv_u * m.e31, inv_u * m.e12,
       inv_u * m.e01 - inv_v * m.e23,
       inv_u * m.e02 - inv_v * m.e31,
       inv_u * m.e03 - inv_v * m.e12⟩
    let a := atan2 u m.s
    let b := if is_approx_zero m.s then -m.e0123 / u else v / m.s
    ⟨a * l.e23, a * l.e31, a * l.e12,
     a * l.e01 - b * l.e23,
     a * l.e02 - b * l.e31,
     a * l.e03 - b * l.e12⟩

/-- `pow(_Motor3, T)` from src/kmath/motor_3d.hpp lines 435-438:
`exp(power * log(m))`. -/
def pow (m : Motor3) (power : ℝ) : Motor3 := exp (Line3.smul power (log m))

/-- the out-parameter quadruple of `to_screw_coordinates` from
src/kmath/motor_3d.hpp lines 214-232. -/
structure ScrewCoords where
  direction : Vec3
  moment : Vec3
  angle : ℝ
  translation : ℝ

/-- `to_screw_coordinates(_Motor3, ...)` from src/kmath/motor_3d.hpp
lines 214-232, including the angle-zero branch with its `_Vec3::INF`
moment sentinel. -/
def to_screw_coordinates (m : Motor3) : ScrewCoords :=
  let angle := 2 * Real.arccos m.s
  if ¬is_approx_zero angle then
    let inv_sin_a := Real.sin (angle / 2)
    let direction := Vec3.smul inv_sin_a ⟨m.e23, m.e31, m.e12⟩
    let translation := -2 * m.s * inv_sin_a
    let moment :=
      Vec3.add (Vec3.smul inv_sin_a ⟨m.e01, m.e02, m.e03⟩)
        (Vec3.smul (-((1/2 : ℝ) * translation * m.s * inv_sin_a)) direction)
    ⟨direction, moment, angle, translation⟩
  else
    let direction := get_translation m
    let translation := Vec3.length direction
    if ¬is_approx_zero translation then
      ⟨Vec3.divScalar direction translation, Vec3.INF, angle, translation⟩
    else
      ⟨Vec3.ZERO, Vec3.INF, angle, translation⟩

/-- `seplerp(_Motor3, _Motor3, T)` from src/kmath/motor_3d.hpp
lines 584-591. -/
def seplerp (a b : Motor3) (t : ℝ) : Motor3 :=
  let a_trans := get_translation a
  let b_trans := get_translation b
  let a_rot := get_rotor a
  let b_rot := get_rotor b
  from_rotor_translation (Rotor3.slerp a_rot b_rot t) (lerp a_trans b_trans t)

/-- `sclerp(_Motor3, _Motor3, T)` from src/kmath/motor_3d.hpp
lines 594-601. -/
def sclerp (a b : Motor3) (t : ℝ) : Motor3 :=
  let delta := mul (reverse a) b
  let sc := to_screw_coordinates delta
  mul a (from_screw_coordinates sc.direction sc.moment (t * sc.angle)
    (t * sc.translation))

/-- `lielerp(_Motor3, _Motor3, T)` from src/kmath/motor_3d.hpp
lines 604-607: `a * pow(reverse(a) * b, t)`. -/
def lielerp (a b : Motor3) (t : ℝ) : Motor3 :=
  mul a (pow (mul (reverse a) b) t)

/-- `transform_point(_Vec3, _Motor3)` from src/kmath/motor_3d.hpp
lines 662-670, term for term, including the division by the squared
norm. -/
def transform_point (a : Vec3) (m : Motor3) : Vec3 :=
  let norm := m.s * m.s + m.e23 * m.e23 + m.e31 * m.e31 + m.e12 * m.e12
  Vec3.divScalar
    ⟨a.x * m.e23 * m.e23 - a.x * m.e31 * m.e31 - a.x * m.e12 * m.e12
       + a.x * m.s * m.s + 2 * a.y * m.e23 * m.e31 + 2 * a.y * m.s * m.e12
       + 2 * a.z * m.e23 * m.e12 - 2 * a.z * m.s * m.e31
       - 2 * m.e01 * m.s - 2 * m.e02 * m.e12 + 2 * m.e03 * m.e31
       - 2 * m.e0123 * m.e23,
     -a.y * m.e23 * m.e23 + a.y * m.e31 * m.e31 - a.y * m.e12 * m.e12
       + a.y * m.s * m.s + 2 * a.z * m.s * m.e23 + 2 * a.x * m.e23 * m.e31
       + 2 * a.z * m.e31 * m.e12 - 2 * a.x * m.s * m.e12
       + 2 * m.e01 * m.e12 - 2 * m.e02 * m.s - 2 * m.e03 * m.e23
       - 2 * m.e0123 * m.e31,
     -a.z * m.e23 * m.e23 - a.z * m.e31 * m.e31 + a.z * m.e12 * m.e12
       + a.z * m.s * m.s + 2 * a.x * m.e23 * m.e12 + 2 * a.x * m.e31 * m.s
       - 2 * a.y * m.e23 * m.s + 2 * a.y * m.e31 * m.e12
       - 2 * m.e01 * m.e31 + 2 * m.e02 * m.e23 - 2 * m.e03 * m.s
       - 2 * m.e0123 * m.e12⟩
    norm

end Motor3

/-- `operator*(_Plane3, _Plane3)` from src/kmath/motor_3d.hpp
lines 688-700: the motor carrying plane `b` onto plane `a`; the e0123
coefficient is the literal constant 0 of the source. -/
def mulPlanes (a b : Plane3) : Motor3 :=
  ⟨b.e1 * a.e1 + b.e2 * a.e2 + b.e3 * a.e3,
   a.e2 * b.e3 - b.e2 * a.e3,
   b.e1 * a.e3 - b.e3 * a.e1,
   b.e2 * a.e1 - a.e2 * b.e1,
   0,
   a.e0 * b.e1 - a.e1 * b.e0,
   a.e0 * b.e2 - a.e2 * b.e0,
   a.e0 * b.e3 - b.e0 * a.e3⟩

/-- `operator*(_Point3, _Point3)` from src/kmath/motor_3d.hpp
lines 718-730: the e23, e31, e12 and e0123 coefficients are the literal
constant 0 of the source. -/
def mulPoints (a b : Point3) : Motor3 :=
  ⟨-a.e123 * b.e123,
   0,
   0,
   0,
   0,
   a.e032 * b.e123 - b.e032 * a.e123,
   a.e013 * b.e123 - a.e123 * b.e013,
   a.e021 * b.e123 - b.e021 * a.e123⟩

/-- `_Mvec3<T>` from src/kmath/pga_3d.hpp lines 42-365: sixteen
coefficients in the basis order (1; e0, e1, e2, e3; e01, e02, e03, e12,
e31, e23; e021, e013, e032, e123; e0123) of the `Basis` enum. -/
@[ext] structure Mvec3 where
  s : ℝ
  e0 : ℝ
  e1 : ℝ
  e2 : ℝ
  e3 : ℝ
  e01 : ℝ
  e02 : ℝ
  e03 : ℝ
  e12 : ℝ
  e31 : ℝ
  e23 : ℝ
  e021 : ℝ
  e013 : ℝ
  e032 : ℝ
  e123 : ℝ
  e0123 : ℝ

namespace Mvec3

/-- the zero multivector: the default `_Mvec3()` constructor from
src/kmath/pga_3d.hpp line 308 zero-initializes all sixteen
coefficients. -/
def zero : Mvec3 := ⟨0, 0, 0, 0, 0, 0, 0, 0, 0, 0, 0, 0, 0, 0, 0, 0⟩

/-- `_Mvec3<T>::grade(int)` from src/kmath/pga_3d.hpp lines 55-86.  The
result `res` starts zero-initialized; each case copies the coefficients of
its grade from `*this` - except case 4, where the source reads
`res[Basis::e0123] = res[Basis::e0123];`, a self-assignment of the
zero-initialized result, so the e0123 coefficient of the argument is never
copied.  The default of the switch leaves `res` zero. -/
def grade (m : Mvec3) (g : ℤ) : Mvec3 :=
  if g = 0 then { zero with s := m.s }
  else if g = 1 then { zero with e0 := m.e0, e1 := m.e1, e2 := m.e2, e3 := m.e3 }
  else if g = 2 then
    { zero with e01 := m.e01, e02 := m.e02, e03 := m.e03,
                e23 := m.e23, e31 := m.e31, e12 := m.e12 }
  else if g = 3 then
    { zero with e032 := m.e032, e013 := m.e013, e021 := m.e021, e123 := m.e123 }
  else if g = 4 then { zero with e0123 := zero.e0123 }
  else zero

end Mvec3

-- ====================
-- = Shared lemmas    =
-- ====================

/-- a unit-length rotor (in the sense of `length`) has unit squared
length. -/
theorem Rotor3.length_squared_eq_one (r : Rotor3) (h : Rotor3.length r = 1) :
    Rotor3.length_squared r = 1 := by
  have hnn : 0 ≤ Rotor3.length_squared r := by
    unfold Rotor3.length_squared
    nlinarith [mul_self_nonneg r.s, mul_self_nonneg r.e23,
      mul_self_nonneg r.e31, mul_self_nonneg r.e12]
  have hms := Real.mul_self_sqrt hnn
  unfold Rotor3.length at h
  rw [h, one_mul] at hms
  exact hms.symm

/-- zero is approximately zero for the linear epsilon test. -/
theorem is_approx_zero_zero : is_approx_zero 0 := by
  norm_num [is_approx_zero, KMATH_EPSILON]

/-- zero is approximately zero for the squared epsilon test. -/
theorem is_square_approx_zero_zero : is_square_approx_zero 0 := by
  norm_num [is_square_approx_zero, KMATH_EPSILON2, KMATH_EPSILON]

/-- the zero vector has length zero. -/
theorem Vec3.length_zero_vec : Vec3.length ⟨0, 0, 0⟩ = 0 := by
  unfold Vec3.length Vec3.length_squared
  norm_num

/-- multiplying a rotor by `IDENTITY` on the right changes nothing. -/
theorem Rotor3.mul_identity_right_rotor (a : Rotor3) :
    Rotor3.mul a Rotor3.IDENTITY = a := by
  ext <;> simp [Rotor3.mul, Rotor3.IDENTITY]

/-- for a rotor of unit squared length, `reverse(r) * r = IDENTITY`. -/
theorem Rotor3.reverse_mul_self (r : Rotor3)
    (h : Rotor3.length_squared r = 1) :
    Rotor3.mul (Rotor3.reverse r) r = Rotor3.IDENTITY := by
  unfold Rotor3.length_squared at h
  ext <;> simp only [Rotor3.mul, Rotor3.reverse, Rotor3.IDENTITY]
  · linear_combination h
  · ring
  · ring
  · ring

/-- for a rotor of unit squared length, `r * reverse(r) = IDENTITY`. -/
theorem Rotor3.mul_reverse_self (r : Rotor3)
    (h : Rotor3.length_squared r = 1) :
    Rotor3.mul r (Rotor3.reverse r) = Rotor3.IDENTITY := by
  unfold Rotor3.length_squared at h
  ext <;> simp only [Rotor3.mul, Rotor3.reverse, Rotor3.IDENTITY]
  · linear_combination h
  · ring
  · ring
  · ring

/-- `ln` of the identity rotor is the zero rotor: the zero-bivector branch
returns `(log 1, 0) = 0`. -/
theorem Rotor3.ln_IDENTITY : Rotor3.ln Rotor3.IDENTITY = Rotor3.ZERO := by
  unfold Rotor3.ln
  simp only [Rotor3.IDENTITY]
  rw [if_pos]
  · unfold Rotor3.length Rotor3.length_squared
    simp only [Rotor3.ofSV, Rotor3.ZERO, Vec3.ZERO]
    norm_num
  · rw [Vec3.length_zero_vec]
    exact is_approx_zero_zero

/-- `exp` of the zero rotor is the identity rotor: the zero-bivector
branch returns `(exp 0, 0) = (1, 0)`. -/
theorem Rotor3.exp_ZERO : Rotor3.exp Rotor3.ZERO = Rotor3.IDENTITY := by
  unfold Rotor3.exp
  simp only [Rotor3.ZERO, Rotor3.get_direction]
  rw [if_pos]
  · simp only [Rotor3.ofSV, Rotor3.IDENTITY, Vec3.smul]
    norm_num
  · rw [Vec3.length_zero_vec]
    exact is_approx_zero_zero

/-- scaling the zero rotor gives the zero rotor. -/
theorem Rotor3.smul_ZERO (t : ℝ) : Rotor3.smul t Rotor3.ZERO = Rotor3.ZERO := by
  ext <;> simp [Rotor3.smul, Rotor3.ZERO]

/-- any real power of the identity rotor is the identity rotor. -/
theorem Rotor3.pow_IDENTITY (t : ℝ) :
    Rotor3.pow Rotor3.IDENTITY t = Rotor3.IDENTITY := by
  unfold Rotor3.pow
  rw [Rotor3.ln_IDENTITY, Rotor3.smul_ZERO, Rotor3.exp_ZERO]

/-- `slerp(r, r, t) = r` for a rotor of unit squared length. -/
theorem Rotor3.slerp_self (r : Rotor3) (t : ℝ)
    (h : Rotor3.length_squared r = 1) :
    Rotor3.slerp r r t = r := by
  unfold Rotor3.slerp
  rw [Rotor3.reverse_mul_self r h, Rotor3.pow_IDENTITY,
    Rotor3.mul_identity_right_rotor]

/-- multiplying a motor by `IDENTITY` on the right changes nothing. -/
theorem Motor3.mul_identity_right_motor (a : Motor3) :
    Motor3.mul a Motor3.IDENTITY = a := by
  ext <;> simp [Motor3.mul, Motor3.IDENTITY, Motor3.ofRotors,
    Rotor3.IDENTITY, Rotor3.ZERO]

/-- re-encoding the decoded rotor and translation of a normalized motor
gives the motor back.  The two hypotheses are the coefficient equations of
`m * reverse(m) = IDENTITY`: unit real part, and orthogonality of the dual
part against the real part. -/
theorem Motor3.from_rotor_translation_get (a : Motor3)
    (h1 : a.s * a.s + a.e23 * a.e23 + a.e31 * a.e31 + a.e12 * a.e12 = 1)
    (h2 : a.e01 * a.e23 + a.e02 * a.e31 + a.e03 * a.e12 = a.s * a.e0123) :
    Motor3.from_rotor_translation (Motor3.get_rotor a)
      (Motor3.get_translation a) = a := by
  ext <;> simp only [Motor3.from_rotor_translation, Motor3.get_rotor,
    Motor3.get_translation, Motor3.get_real_part, Motor3.get_dual_part,
    Motor3.ofRotors, Rotor3.reverse, Rotor3.mul, Rotor3.smul, Rotor3.ofSV,
    Vec3.smul]
  case e0123 => linear_combination a.e0123 * h1 + a.s * h2
  case e01 => linear_combination a.e01 * h1 - a.e23 * h2
  case e02 => linear_combination a.e02 * h1 - a.e31 * h2
  case e03 => linear_combination a.e03 * h1 - a.e12 * h2

/-- `log` of the identity motor is the zero line (the pure-translation
branch with zero translation part). -/
theorem Motor3.log_IDENTITY : Motor3.log Motor3.IDENTITY = ⟨0, 0, 0, 0, 0, 0⟩ := by
  unfold Motor3.log
  simp only [Motor3.IDENTITY, Motor3.ofRotors, Rotor3.IDENTITY, Rotor3.ZERO]
  rw [if_pos]
  rw [Vec3.length_zero_vec]
  exact is_approx_zero_zero

/-- scaling the zero line gives the zero line. -/
theorem Line3.smul_zero_line (t : ℝ) :
    Line3.smul t ⟨0, 0, 0, 0, 0, 0⟩ = ⟨0, 0, 0, 0, 0, 0⟩ := by
  ext <;> simp [Line3.smul]

/-- `exp` of the zero line is the identity motor (the ideal-bivector
branch with zero translation part). -/
theorem Motor3.exp_zero_line : Motor3.exp ⟨0, 0, 0, 0, 0, 0⟩ = Motor3.IDENTITY := by
  unfold Motor3.exp
  rw [if_pos]
  · rfl
  · show is_square_approx_zero (Line3.magnitude_squared ⟨0, 0, 0, 0, 0, 0⟩)
    unfold Line3.magnitude_squared
    norm_num
    exact is_square_approx_zero_zero

/-- the screw coordinates of the identity motor: zero angle, zero
translation, zero direction, and the INF moment sentinel of the
pure-translation branch. -/
theorem Motor3.to_screw_coordinates_IDENTITY :
    Motor3.to_screw_coordinates Motor3.IDENTITY =
      ⟨Vec3.ZERO, Vec3.INF, 0, 0⟩ := by
  have htr : Motor3.get_translation Motor3.IDENTITY = ⟨0, 0, 0⟩ := by
    ext <;> simp [Motor3.get_translation, Motor3.IDENTITY, Motor3.ofRotors,
      Motor3.get_dual_part, Motor3.get_real_part, Rotor3.reverse, Rotor3.mul,
      Rotor3.smul, Rotor3.IDENTITY, Rotor3.ZERO]
  have hs : Motor3.IDENTITY.s = (1 : ℝ) := rfl
  unfold Motor3.to_screw_coordinates
  simp only [hs, Real.arccos_one, mul_zero, htr, Vec3.length_zero_vec]
  rw [if_neg (not_not_intro is_approx_zero_zero),
    if_neg (not_not_intro is_approx_zero_zero)]

/-- rebuilding a motor from zero screw coordinates gives the identity
motor: the zero-angle branch is a pure translation by the zero vector. -/
theorem Motor3.from_screw_coordinates_zero (d m : Vec3) :
    Motor3.from_screw_coordinates d m 0 0 = Motor3.IDENTITY := by
  unfold Motor3.from_screw_coordinates
  rw [if_neg (not_not_intro is_approx_zero_zero)]
  unfold Motor3.from_translation
  ext <;> simp [Motor3.ofRotors, Rotor3.ofSV, Rotor3.IDENTITY, Rotor3.ZERO,
    Vec3.smul, Motor3.IDENTITY]

/-- for a positive second argument, `atan2(y, x) = arctan(y / x)`. -/
theorem atan2_of_pos (y x : ℝ) (h : 0 < x) :
    atan2 y x = Real.arctan (y / x) := by
  unfold atan2
  rw [if_pos h]

-- ====================
-- = Claim theorems   =
-- ====================

/-- C4: the claim states that `transform(v, rotor)` applies the rotation
given by the sandwich product, so in particular
`transform(v, Rotor3::IDENTITY) = v`.  The code violates this: the
closed-form expansion in src/kmath/rotor_3d.hpp lines 317-324 is globally
negated (it is the exact negation of the motor `transform_direction`
expansion), so the identity rotor sends (1, 0, 0) to (-1, 0, 0). -/
theorem C4_transform_vec_rotor_identity_bug :
    transformVec ⟨1, 0, 0⟩ Rotor3.IDENTITY = ⟨-1, 0, 0⟩ ∧
      transformVec ⟨1, 0, 0⟩ Rotor3.IDENTITY ≠ ⟨1, 0, 0⟩ := by
  constructor
  · ext <;> norm_num [transformVec, Rotor3.IDENTITY]
  · intro h
    have hx := congrArg Vec3.x h
    norm_num [transformVec, Rotor3.IDENTITY] at hx

/-- C5: for every motor `a` normalized in the sense
`a * reverse(a) = IDENTITY` and every `t` in the unit interval, the three
interpolators are identity-preserving on equal endpoints:
`seplerp(a, a, t) = a`, `sclerp(a, a, t) = a` and `lielerp(a, a, t) = a`,
exactly, in exact real arithmetic. -/
theorem C5_interpolators_identity_on_equal_endpoints (a : Motor3) (t : ℝ)
    (ht0 : 0 ≤ t) (ht1 : t ≤ 1)
    (hN : Motor3.mul a (Motor3.reverse a) = Motor3.IDENTITY) :
    Motor3.seplerp a a t = a ∧ Motor3.sclerp a a t = a ∧
      Motor3.lielerp a a t = a := by
  have hs := congrArg Motor3.s hN
  have hp := congrArg Motor3.e0123 hN
  simp only [Motor3.mul, Motor3.reverse, Motor3.IDENTITY, Motor3.ofRotors,
    Rotor3.IDENTITY, Rotor3.ZERO] at hs hp
  have hK1 : a.s * a.s + a.e23 * a.e23 + a.e31 * a.e31 + a.e12 * a.e12 = 1 := by
    linear_combination hs
  have hK2 : a.e01 * a.e23 + a.e02 * a.e31 + a.e03 * a.e12 =
      a.s * a.e0123 := by
    linear_combination (-(1 : ℝ)/2) * hp
  have hrev : Motor3.mul (Motor3.reverse a) a = Motor3.IDENTITY := by
    ext <;> simp only [Motor3.mul, Motor3.reverse, Motor3.IDENTITY,
      Motor3.ofRotors, Rotor3.IDENTITY, Rotor3.ZERO]
    case s => linear_combination hK1
    case e23 => ring
    case e31 => ring
    case e12 => ring
    case e0123 => linear_combination (-2 : ℝ) * hK2
    case e01 => ring
    case e02 => ring
    case e03 => ring
  refine ⟨?_, ?_, ?_⟩
  · -- seplerp
    have hrotlsq : Rotor3.length_squared (Motor3.get_rotor a) = 1 := hK1
    show Motor3.from_rotor_translation
        (Rotor3.slerp (Motor3.get_rotor a) (Motor3.get_rotor a) t)
        (lerp (Motor3.get_translation a) (Motor3.get_translation a) t) = a
    rw [Rotor3.slerp_self _ t hrotlsq]
    have hlerp : lerp (Motor3.get_translation a) (Motor3.get_translation a) t
        = Motor3.get_translation a := by
      ext <;> simp [lerp, Vec3.add, Vec3.smul] <;> ring
    rw [hlerp]
    exact Motor3.from_rotor_translation_get a hK1 hK2
  · -- sclerp
    unfold Motor3.sclerp
    simp only [hrev, Motor3.to_screw_coordinates_IDENTITY, mul_zero]
    rw [Motor3.from_screw_coordinates_zero, Motor3.mul_identity_right_motor]
  · -- lielerp
    unfold Motor3.lielerp Motor3.pow
    rw [hrev, Motor3.log_IDENTITY, Line3.smul_zero_line, Motor3.exp_zero_line,
      Motor3.mul_identity_right_motor]

/-- C5 witness: the identity motor is normalized and the three
interpolators fix it at t = 1/2. -/
theorem C5_interpolators_identity_on_equal_endpoints_witness :
    (0 ≤ (1/2 : ℝ)) ∧ ((1/2 : ℝ) ≤ 1) ∧
      Motor3.mul Motor3.IDENTITY (Motor3.reverse Motor3.IDENTITY) =
        Motor3.IDENTITY ∧
      (Motor3.seplerp Motor3.IDENTITY Motor3.IDENTITY (1/2) =
          Motor3.IDENTITY ∧
        Motor3.sclerp Motor3.IDENTITY Motor3.IDENTITY (1/2) =
          Motor3.IDENTITY ∧
        Motor3.lielerp Motor3.IDENTITY Motor3.IDENTITY (1/2) =
          Motor3.IDENTITY) := by
  have hID : Motor3.mul Motor3.IDENTITY (Motor3.reverse Motor3.IDENTITY) =
      Motor3.IDENTITY := by
    ext <;> simp [Motor3.mul, Motor3.reverse, Motor3.IDENTITY, Motor3.ofRotors,
      Rotor3.IDENTITY, Rotor3.ZERO]
  exact ⟨by norm_num, by norm_num, hID,
    C5_interpolators_identity_on_equal_endpoints Motor3.IDENTITY (1/2)
      (by norm_num) (by norm_num) hID⟩

/-- C6: there is a sign `s` in (+1, -1) such that the meet of the plane
through normal (1, -2, 3) at distance 5 with the vanishing plane of offset
-2 equals `s` times `vanishing_line(2, -4, 6)`; the resulting line has
zero direction part and moment proportional to (2, -4, 6) with factor of
absolute value 1.  The code realizes this with `s = -1`. -/
theorem C6_meet_vanishing_plane_sign :
    ∃ s : ℝ, (s = 1 ∨ s = -1) ∧
      meetPP (Plane3.plane ⟨1, -2, 3⟩ 5) (Plane3.plane ⟨0, 0, 0⟩ (-2)) =
        Line3.smul s (Line3.vanishing_line 2 (-4) 6) := by
  refine ⟨-1, Or.inr rfl, ?_⟩
  ext <;> norm_num [meetPP, Plane3.plane, Line3.smul, Line3.vanishing_line]

/-- C7: the claim states that `grade(g)` keeps the coefficients of grade
`g` and zeroes the others, in particular that `grade(4)` preserves the
e0123 coefficient.  The code violates this: case 4 of the switch in
src/kmath/pga_3d.hpp line 82 self-assigns the zero-initialized result
(`res[Basis::e0123] = res[Basis::e0123]`), so `grade(4)` returns the zero
multivector even when the argument has e0123 = 1. -/
theorem C7_grade4_drops_pseudoscalar_bug :
    Mvec3.grade ⟨0, 0, 0, 0, 0, 0, 0, 0, 0, 0, 0, 0, 0, 0, 0, 1⟩ 4 =
        Mvec3.zero ∧
      (⟨0, 0, 0, 0, 0, 0, 0, 0, 0, 0, 0, 0, 0, 0, 0, 1⟩ : Mvec3).e0123 = 1 := by
  constructor
  · ext <;> norm_num [Mvec3.grade, Mvec3.zero]
  · rfl

/-- C8: for each of the three flat types, `is_vanishing(x)` holds exactly
when `magnitude_squared(x)` passes the squared-epsilon test
`is_square_approx_zero`; for points (whose finite part is the homogeneous
weight e123) the source's linear test `|e123| < eps` is equivalent to the
squared test `|e123 * e123| < eps * eps`. -/
theorem C8_is_vanishing_threshold :
    (∀ a : Plane3,
        Plane3.is_vanishing a ↔
          is_square_approx_zero (Plane3.magnitude_squared a)) ∧
      (∀ a : Line3,
        Line3.is_vanishing a ↔
          is_square_approx_zero (Line3.magnitude_squared a)) ∧
      ∀ a : Point3,
        Point3.is_vanishing a ↔
          is_square_approx_zero (Point3.magnitude_squared a) := by
  refine ⟨fun a => Iff.rfl, fun a => Iff.rfl, fun a => ?_⟩
  have hc : (0 : ℝ) < KMATH_EPSILON := by norm_num [KMATH_EPSILON]
  unfold Point3.is_vanishing Point3.magnitude_squared is_approx_zero
    is_square_approx_zero
  rw [KMATH_EPSILON2, abs_mul]
  constructor
  · intro h
    exact mul_self_lt_mul_self (abs_nonneg _) h
  · intro h
    by_contra hle
    push_neg at hle
    have := mul_self_le_mul_self (le_of_lt hc) hle
    linarith

/-- C9: the motor product of two planes has e0123 coefficient exactly 0,
and the motor product of two points has e23, e31, e12 and e0123
coefficients exactly 0, so both products always yield a simple motor. -/
theorem C9_flat_products_simple :
    (∀ a b : Plane3, (mulPlanes a b).e0123 = 0) ∧
      ∀ a b : Point3,
        (mulPoints a b).e23 = 0 ∧ (mulPoints a b).e31 = 0 ∧
          (mulPoints a b).e12 = 0 ∧ (mulPoints a b).e0123 = 0 :=
  ⟨fun _ _ => rfl, fun _ _ => ⟨rfl, rfl, rfl, rfl⟩⟩

/-- C10: for every vanishing plane `p` (finite normal part below the
squared-epsilon threshold), `normalized(p)` returns the constant plane
(0, 0, 0, -1), independent of the offset `p.e0`. -/
theorem C10_normalized_vanishing_plane (p : Plane3)
    (h : Plane3.is_vanishing p) :
    Plane3.normalized p = ⟨0, 0, 0, -1⟩ := by
  unfold Plane3.normalized
  rw [if_neg (not_not_intro h)]

/-- C1 counterexample: the claim asserts `sqrt(m) * sqrt(m) ≈ m` for every
motor with `m * reverse(m) = IDENTITY`.  The normalized screw motor
m = (3/5, 0, 0, 4/5 | -4/5, 0, 0, -3/5) (rotation about z combined with
translation along z) falls in the non-negative-scalar branch, yet the
e0123 coefficient of `sqrt(m) * sqrt(m)` is -21/20 while m.e0123 = -4/5:
an error of 1/4, far beyond any epsilon. -/
theorem C1_sqrt_square_counterexample :
    Motor3.mul (⟨3/5, 0, 0, 4/5, -4/5, 0, 0, -3/5⟩ : Motor3)
        (Motor3.reverse ⟨3/5, 0, 0, 4/5, -4/5, 0, 0, -3/5⟩) =
        Motor3.IDENTITY ∧
      (0 : ℝ) ≤ (⟨3/5, 0, 0, 4/5, -4/5, 0, 0, -3/5⟩ : Motor3).s ∧
      (Motor3.mul (Motor3.sqrt ⟨3/5, 0, 0, 4/5, -4/5, 0, 0, -3/5⟩)
          (Motor3.sqrt ⟨3/5, 0, 0, 4/5, -4/5, 0, 0, -3/5⟩)).e0123 = -21/20 ∧
      (⟨3/5, 0, 0, 4/5, -4/5, 0, 0, -3/5⟩ : Motor3).e0123 = -4/5 := by
  refine ⟨?_, by norm_num, ?_, rfl⟩
  · ext <;> norm_num [Motor3.mul, Motor3.reverse, Motor3.IDENTITY,
      Motor3.ofRotors, Rotor3.IDENTITY, Rotor3.ZERO]
  · have hc : Real.sqrt (16/5) * Real.sqrt (16/5) = 16/5 :=
      Real.mul_self_sqrt (by norm_num)
    have key : ∀ x y : ℝ,
        x / Real.sqrt (16/5) * (y / Real.sqrt (16/5)) = x * y / (16/5) := by
      intro x y
      rw [div_mul_div_comm, hc]
    have hsq : Motor3.sqrt ⟨3/5, 0, 0, 4/5, -4/5, 0, 0, -3/5⟩ =
        Motor3.divScalar ⟨8/5, 0, 0, 4/5, -13/20, 0, 0, -4/5⟩
          (Real.sqrt (16/5)) := by
      unfold Motor3.sqrt
      rw [if_pos (by norm_num : (0:ℝ) ≤
        (⟨3/5, 0, 0, 4/5, -4/5, 0, 0, -3/5⟩ : Motor3).s)]
      have harg : (2 : ℝ) * (1 + (⟨3/5, 0, 0, 4/5, -4/5, 0, 0, -3/5⟩ :
          Motor3).s) = 16/5 := by norm_num
      ext <;> simp only [Motor3.divScalar, harg] <;> norm_num
    rw [hsq]
    simp only [Motor3.mul, Motor3.divScalar, key]
    norm_num

/-- C1 amended: for a normalized motor with zero e0123 (a simple motor),
the non-negative-scalar branch satisfies `sqrt(m) * sqrt(m) = m` exactly,
while the negative-scalar branch yields the other sheet of the double
cover: `sqrt(m) * sqrt(m) = -m`, the same rigid transformation. -/
theorem C1_sqrt_square_simple (m : Motor3)
    (hN : Motor3.mul m (Motor3.reverse m) = Motor3.IDENTITY)
    (hsimple : m.e0123 = 0) :
    (0 ≤ m.s → Motor3.mul (Motor3.sqrt m) (Motor3.sqrt m) = m) ∧
      (m.s < 0 → Motor3.mul (Motor3.sqrt m) (Motor3.sqrt m) =
        Motor3.neg m) := by
  obtain ⟨ms, m23, m31, m12, mp, m01, m02, m03⟩ := m
  have hp0 : mp = 0 := hsimple
  subst hp0
  have hs := congrArg Motor3.s hN
  have hp := congrArg Motor3.e0123 hN
  simp only [Motor3.mul, Motor3.reverse, Motor3.IDENTITY, Motor3.ofRotors,
    Rotor3.IDENTITY, Rotor3.ZERO] at hs hp
  have hK1 : ms * ms + m23 * m23 + m31 * m31 + m12 * m12 = 1 := by
    linear_combination hs
  have hS : m01 * m23 + m02 * m31 + m03 * m12 = 0 := by
    linear_combination (-(1 : ℝ)/2) * hp
  constructor
  · -- non-negative-scalar branch
    intro h0
    have h0' : (0 : ℝ) ≤ ms := h0
    have hpos : (0 : ℝ) < 2 * (1 + ms) := by linarith
    have hc : Real.sqrt (2 * (1 + ms)) * Real.sqrt (2 * (1 + ms)) =
        2 * (1 + ms) := Real.mul_self_sqrt (le_of_lt hpos)
    have key : ∀ x y : ℝ,
        x / Real.sqrt (2 * (1 + ms)) * (y / Real.sqrt (2 * (1 + ms))) =
          x * y / (2 * (1 + ms)) := by
      intro x y
      rw [div_mul_div_comm, hc]
    have hne : (2 : ℝ) * (1 + ms) ≠ 0 := ne_of_gt hpos
    unfold Motor3.sqrt
    rw [if_pos h0]
    ext <;> simp only [Motor3.mul, Motor3.divScalar, key]
    case s =>
      field_simp
      linear_combination -hK1
    case e23 =>
      field_simp
      ring
    case e31 =>
      field_simp
      ring
    case e12 =>
      field_simp
      ring
    case e0123 =>
      field_simp
      linear_combination 2 * hS
    case e01 =>
      field_simp
      ring
    case e02 =>
      field_simp
      ring
    case e03 =>
      field_simp
      ring
  · -- negative-scalar branch
    intro h0
    have h0' : ¬((0 : ℝ) ≤ ms) := not_le_of_lt h0
    have hpos : (0 : ℝ) < 2 * (1 - ms) := by
      have : ms < 0 := h0
      linarith
    have hc : Real.sqrt (2 * (1 - ms)) * Real.sqrt (2 * (1 - ms)) =
        2 * (1 - ms) := Real.mul_self_sqrt (le_of_lt hpos)
    have key : ∀ x y : ℝ,
        x / Real.sqrt (2 * (1 - ms)) * (y / Real.sqrt (2 * (1 - ms))) =
          x * y / (2 * (1 - ms)) := by
      intro x y
      rw [div_mul_div_comm, hc]
    have hne : (2 : ℝ) * (1 - ms) ≠ 0 := ne_of_gt hpos
    unfold Motor3.sqrt
    rw [if_neg h0']
    ext <;> simp only [Motor3.mul, Motor3.divScalar, Motor3.neg, key]
    case s =>
      field_simp
      linear_combination -hK1
    case e23 =>
      field_simp
      ring
    case e31 =>
      field_simp
      ring
    case e12 =>
      field_simp
      ring
    case e0123 =>
      field_simp
      linear_combination 2 * hS
    case e01 =>
      field_simp
      ring
    case e02 =>
      field_simp
      ring
    case e03 =>
      field_simp
      ring

/-- C1 witness: the identity motor is normalized and simple; its square
root squares back to it in the non-negative branch, and the
negative-scalar branch is vacuous there. -/
theorem C1_sqrt_square_simple_witness :
    Motor3.mul Motor3.IDENTITY (Motor3.reverse Motor3.IDENTITY) =
        Motor3.IDENTITY ∧
      Motor3.IDENTITY.e0123 = 0 ∧
      ((0 ≤ Motor3.IDENTITY.s →
          Motor3.mul (Motor3.sqrt Motor3.IDENTITY)
            (Motor3.sqrt Motor3.IDENTITY) = Motor3.IDENTITY) ∧
        (Motor3.IDENTITY.s < 0 →
          Motor3.mul (Motor3.sqrt Motor3.IDENTITY)
            (Motor3.sqrt Motor3.IDENTITY) = Motor3.neg Motor3.IDENTITY)) := by
  have hID : Motor3.mul Motor3.IDENTITY (Motor3.reverse Motor3.IDENTITY) =
      Motor3.IDENTITY := by
    ext <;> simp [Motor3.mul, Motor3.reverse, Motor3.IDENTITY, Motor3.ofRotors,
      Rotor3.IDENTITY, Rotor3.ZERO]
  exact ⟨hID, rfl, C1_sqrt_square_simple Motor3.IDENTITY hID rfl⟩

/-- C2: the claim (and the comment on `log` in src/kmath/motor_3d.hpp
line 357) states that `exp(log(m))` represents the same transformation as
`m` for every normalized motor.  The code violates this: `log` sets its
normalization scale to `length(...)` of the bivector part where the
sturdy-number derivation (and `exp`) use the squared length, so for the
normalized rotation motor m = (sqrt(15)/4, 1/4, 0, 0 | 0, 0, 0, 0) the
point p = (0, 1, 0) is carried by `exp(log(m))` to a point whose y
coordinate exceeds the correct value 7/8 by more than 1/100. -/
theorem C2_exp_log_transform_point_bug :
    Motor3.mul (⟨Real.sqrt 15 / 4, 1/4, 0, 0, 0, 0, 0, 0⟩ : Motor3)
        (Motor3.reverse ⟨Real.sqrt 15 / 4, 1/4, 0, 0, 0, 0, 0, 0⟩) =
        Motor3.IDENTITY ∧
      (Motor3.transform_point ⟨0, 1, 0⟩
          (⟨Real.sqrt 15 / 4, 1/4, 0, 0, 0, 0, 0, 0⟩ : Motor3)).y = 7/8 ∧
      7/8 + 1/100 <
        (Motor3.transform_point ⟨0, 1, 0⟩
          (Motor3.exp (Motor3.log
            ⟨Real.sqrt 15 / 4, 1/4, 0, 0, 0, 0, 0, 0⟩))).y := by
  have h15 : Real.sqrt 15 * Real.sqrt 15 = 15 :=
    Real.mul_self_sqrt (by norm_num)
  have h15pos : (0 : ℝ) < Real.sqrt 15 := Real.sqrt_pos.mpr (by norm_num)
  have h15ne : Real.sqrt 15 ≠ 0 := ne_of_gt h15pos
  have h15lt4 : Real.sqrt 15 < 4 := (Real.sqrt_lt' (by norm_num)).mpr (by norm_num)
  have h15gt3 : (3 : ℝ) < Real.sqrt 15 :=
    (Real.lt_sqrt (by norm_num)).mpr (by norm_num)
  have h1516 : Real.sqrt 15 / 4 * (Real.sqrt 15 / 4) = 15/16 := by
    rw [div_mul_div_comm, h15]
    norm_num
  refine ⟨?_, ?_, ?_⟩
  · -- the motor is normalized
    ext <;> simp only [Motor3.mul, Motor3.reverse, Motor3.IDENTITY,
      Motor3.ofRotors, Rotor3.IDENTITY, Rotor3.ZERO]
    case s => linear_combination (1/16 : ℝ) * h15
    all_goals ring
  · -- transform_point by m itself
    simp only [Motor3.transform_point, Vec3.divScalar]
    norm_num [h1516]
  · -- transform_point by exp(log(m))
    set A := Real.arctan (2 / Real.sqrt 15) with hAdef
    have htpos : (0 : ℝ) < 2 / Real.sqrt 15 := by positivity
    have hA : (0 : ℝ) < A := by
      have := Real.arctan_strictMono htpos
      rwa [Real.arctan_zero] at this
    -- step 1: evaluate log(m)
    have hr : Vec3.length ⟨(1/4 : ℝ), 0, 0⟩ = 1/4 := by
      unfold Vec3.length Vec3.length_squared
      rw [show (1/4 : ℝ) * (1/4) + 0 * 0 + 0 * 0 = (1/4)^2 by norm_num]
      exact Real.sqrt_sq (by norm_num)
    have hc1 : ¬is_approx_zero ((1/4 : ℝ)) := by
      unfold is_approx_zero KMATH_EPSILON
      rw [abs_of_nonneg (by norm_num : (0:ℝ) ≤ 1/4), not_lt]
      norm_num
    have hu : Real.sqrt ((1/4 : ℝ)) = 1/2 := by
      rw [show (1/4 : ℝ) = (1/2)^2 by norm_num]
      exact Real.sqrt_sq (by norm_num)
    have hc2 : ¬is_approx_zero (Real.sqrt 15 / 4) := by
      unfold is_approx_zero KMATH_EPSILON
      rw [abs_of_nonneg (by positivity), not_lt]
      nlinarith [h15gt3]
    have harg : (1/2 : ℝ) / (Real.sqrt 15 / 4) = 2 / Real.sqrt 15 := by
      field_simp
      ring
    have hatan : atan2 (1/2) (Real.sqrt 15 / 4) = A := by
      rw [atan2_of_pos _ _ (by positivity), harg]
    have hlog : Motor3.log ⟨Real.sqrt 15 / 4, 1/4, 0, 0, 0, 0, 0, 0⟩ =
        ⟨A / 2, 0, 0, 0, 0, 0⟩ := by
      unfold Motor3.log
      simp only [hr]
      rw [if_neg hc1]
      simp only [hu]
      rw [if_neg hc2, hatan]
      ext <;> (try norm_num) <;> (try ring)
    rw [hlog]
    -- step 2: evaluate exp of the resulting line
    have hA2pos : (0 : ℝ) < A / 2 := by linarith
    have hA2ne : A / 2 ≠ (0 : ℝ) := ne_of_gt hA2pos
    -- lower bound on A, needed for the branch condition of exp
    have hsinA : Real.sin A = (2 / Real.sqrt 15) /
        Real.sqrt (1 + (2 / Real.sqrt 15)^2) := Real.sin_arctan _
    have hthalf : (1/2 : ℝ) < 2 / Real.sqrt 15 := by
      rw [div_lt_div_iff (by norm_num) h15pos]
      linarith
    have ht1 : 2 / Real.sqrt 15 < 1 := by
      rw [div_lt_one h15pos]
      linarith
    have hsq32 : Real.sqrt (1 + (2 / Real.sqrt 15)^2) < 3/2 := by
      refine (Real.sqrt_lt' (by norm_num)).mpr ?_
      nlinarith [htpos]
    have hsqpos : (0 : ℝ) < Real.sqrt (1 + (2 / Real.sqrt 15)^2) :=
      Real.sqrt_pos.mpr (by positivity)
    have hsinlb : (1/3 : ℝ) < Real.sin A := by
      have hprod : Real.sin A * Real.sqrt (1 + (2 / Real.sqrt 15)^2) =
          2 / Real.sqrt 15 := by
        rw [hsinA]
        field_simp
      nlinarith [hprod, hsq32, hsqpos, hthalf]
    have hA3 : (1/3 : ℝ) < A := lt_trans hsinlb (Real.sin_lt hA)
    have hconds : ¬is_square_approx_zero (A / 2 * (A / 2) + 0 * 0 + 0 * 0) := by
      unfold is_square_approx_zero KMATH_EPSILON2 KMATH_EPSILON
      rw [abs_of_nonneg (by positivity), not_lt]
      nlinarith [hA3]
    have husqrt : Real.sqrt (A / 2 * (A / 2) + 0 * 0 + 0 * 0) = A / 2 := by
      rw [show A / 2 * (A / 2) + 0 * 0 + 0 * 0 = (A/2)^2 by ring]
      exact Real.sqrt_sq (le_of_lt hA2pos)
    have hinv : 1 / (A / 2) * (A / 2) = 1 := one_div_mul_cancel hA2ne
    have hexp : Motor3.exp ⟨A / 2, 0, 0, 0, 0, 0⟩ =
        ⟨Real.cos (A / 2), Real.sin (A / 2), 0, 0, 0, 0, 0, 0⟩ := by
      unfold Motor3.exp
      simp only [Line3.magnitude_squared]
      rw [if_neg hconds]
      simp only [husqrt]
      ext <;> (try norm_num [hinv]) <;> (try field_simp)
    rw [hexp]
    -- step 3: the y coordinate is cos(A), and cos(A) exceeds 7/8 + 1/100
    have hpyth := Real.sin_sq_add_cos_sq (A / 2)
    have hden : Real.cos (A / 2) * Real.cos (A / 2) +
        Real.sin (A / 2) * Real.sin (A / 2) + 0 * 0 + 0 * 0 = 1 := by
      linear_combination hpyth
    have hcos2 : Real.cos (A / 2) * Real.cos (A / 2) -
        Real.sin (A / 2) * Real.sin (A / 2) = Real.cos A := by
      have h1 := Real.cos_two_mul (A / 2)
      rw [show (2 : ℝ) * (A / 2) = A by ring] at h1
      linear_combination -h1 - hpyth
    have hcosA : Real.cos A = 1 / Real.sqrt (19/15) := by
      rw [hAdef, Real.cos_arctan]
      rw [show (1 : ℝ) + (2 / Real.sqrt 15)^2 = 19/15 by
        rw [div_pow, sq (Real.sqrt 15), h15]
        norm_num]
    have hsqrt1915 : Real.sqrt (19/15) < 200/177 :=
      (Real.sqrt_lt' (by norm_num)).mpr (by norm_num)
    have hsqrt1915pos : (0 : ℝ) < Real.sqrt (19/15) :=
      Real.sqrt_pos.mpr (by norm_num)
    have hbound : (177/200 : ℝ) < 1 / Real.sqrt (19/15) := by
      rw [show (177/200 : ℝ) = 1 / (200/177) by norm_num]
      exact one_div_lt_one_div_of_lt hsqrt1915pos hsqrt1915
    have hyval : (Motor3.transform_point ⟨0, 1, 0⟩
        ⟨Real.cos (A / 2), Real.sin (A / 2), 0, 0, 0, 0, 0, 0⟩).y =
        Real.cos A := by
      simp only [Motor3.transform_point, Vec3.divScalar]
      rw [hden]
      rw [div_one]
      linear_combination hcos2
    rw [hyval, hcosA]
    linarith [hbound]

/-- C3: for every unit rotor `r` and translation `t`, decoding the motor
`from_rotor_translation(r, t)` gives back exactly `r` via `get_rotor` and
exactly `t` via `get_translation`: the encoder's sign convention matches
the decoder. -/
theorem C3_from_rotor_translation_roundtrip (r : Rotor3) (t : Vec3)
    (h : Rotor3.length r = 1) :
    Motor3.get_rotor (Motor3.from_rotor_translation r t) = r ∧
      Motor3.get_translation (Motor3.from_rotor_translation r t) = t := by
  have hlsq := Rotor3.length_squared_eq_one r h
  unfold Rotor3.length_squared at hlsq
  constructor
  · rfl
  · ext
    · simp only [Motor3.get_translation, Motor3.from_rotor_translation,
        Motor3.ofRotors, Motor3.get_dual_part, Motor3.get_real_part,
        Rotor3.reverse, Rotor3.mul, Rotor3.smul, Rotor3.ofSV, Vec3.smul]
      linear_combination t.x * hlsq
    · simp only [Motor3.get_translation, Motor3.from_rotor_translation,
        Motor3.ofRotors, Motor3.get_dual_part, Motor3.get_real_part,
        Rotor3.reverse, Rotor3.mul, Rotor3.smul, Rotor3.ofSV, Vec3.smul]
      linear_combination t.y * hlsq
    · simp only [Motor3.get_translation, Motor3.from_rotor_translation,
        Motor3.ofRotors, Motor3.get_dual_part, Motor3.get_real_part,
        Rotor3.reverse, Rotor3.mul, Rotor3.smul, Rotor3.ofSV, Vec3.smul]
      linear_combination t.z * hlsq

/-- C3 witness: the identity rotor has length 1, and the round trip at
rotor IDENTITY with translation (1, 2, 3) recovers both. -/
theorem C3_from_rotor_translation_roundtrip_witness :
    Rotor3.length Rotor3.IDENTITY = 1 ∧
      Motor3.get_rotor (Motor3.from_rotor_translation Rotor3.IDENTITY
          ⟨1, 2, 3⟩) = Rotor3.IDENTITY ∧
        Motor3.get_translation (Motor3.from_rotor_translation Rotor3.IDENTITY
          ⟨1, 2, 3⟩) = ⟨1, 2, 3⟩ := by
  have hlen : Rotor3.length Rotor3.IDENTITY = 1 := by
    unfold Rotor3.length Rotor3.length_squared Rotor3.IDENTITY
    norm_num
  have hrt := C3_from_rotor_translation_roundtrip Rotor3.IDENTITY ⟨1, 2, 3⟩ hlen
  exact ⟨hlen, hrt.1, hrt.2⟩

/-- C10 witness: the vanishing plane (0, 0, 0, 5) - a nonzero offset that
is discarded - satisfies the hypothesis and normalizes to
(0, 0, 0, -1). -/
theorem C10_normalized_vanishing_plane_witness :
    Plane3.is_vanishing ⟨0, 0, 0, 5⟩ ∧
      Plane3.normalized ⟨0, 0, 0, 5⟩ = ⟨0, 0, 0, -1⟩ := by
  have h : Plane3.is_vanishing ⟨0, 0, 0, 5⟩ := by
    norm_num [Plane3.is_vanishing, Plane3.magnitude_squared,
      is_square_approx_zero, KMATH_EPSILON2, KMATH_EPSILON]
  exact ⟨h, C10_normalized_vanishing_plane ⟨0, 0, 0, 5⟩ h⟩

end kmath
